import Mathlib

/-!
Shallow embedding of the yatsdb browser console (`src/console/console.js`).

The embedding covers the two core pieces the specification describes:

* `TSDBWatch` — the polling/backoff state machine.  The JavaScript object
  holds `refresh_`, `delay_` and `timer_`.  `timer_` holds either `null` or
  the numeric id returned by `window.setTimeout`; `window.clearTimeout`
  cancels the timeout but does not null the field, so the model keeps two
  components: `timerField : Option ℚ` (the value of `this.timer_`, recorded
  together with the delay in seconds it was armed with) and `armed : Bool`
  (whether the referenced timeout is still pending, i.e. neither fired nor
  cancelled).  Callback invocation is returned as a `Bool` from each event
  handler rather than modelling the callback itself.

* `Chart.prototype.drawChart_` — the series-set to table assembly.  JS
  numbers are modelled as `ℚ`; a `google.visualization.DataTable` is
  modelled as the list of value-column labels (in `addColumn` order, the
  implicit timestamp column omitted) plus the list of rows, each row a
  timestamp in milliseconds (`new Date(seconds * 1000)`) together with the
  value cells (`null` as `none`).

* the percent-encoding pair `encodeURIComponent` / `decodeURIComponent`
  used for the URL fragment, modelled at the byte level (UTF-8 code units;
  all unreserved characters are ASCII and every non-ASCII character is
  escaped bytewise, so the `%`-escape layer is exactly a byte transform).
  A thrown `URIError` on decoding is modelled as `none`.
-/

namespace Yatsdb

/-- One time series from the backend response: a tag mapping (in insertion
order, which is what `for (var key in ts.tags)` enumerates for string keys)
and the `timestamps_values` array of `[epochSeconds, value]` pairs. -/
structure Series where
  tags : List (String × String)
  timestamps_values : List (ℚ × ℚ)
deriving DecidableEq

/-- The column label built for a series:
`tags.push(key + '=' + ts.tags[key]); tags.join(',')`. -/
def seriesLabel (s : Series) : String :=
  String.intercalate "," (s.tags.map (fun kv => kv.1 ++ "=" ++ kv.2))

/-- The model of a `google.visualization.DataTable` as `drawChart_` fills it:
the labels of the `number` columns in the order `addColumn` was called
(the leading `date` Timestamp column is kept implicit), and the rows in
`addRow` order, each a millisecond timestamp plus the value cells. -/
structure DataTable where
  cols : List String
  rows : List (ℚ × List (Option ℚ))
deriving DecidableEq

/-- The first loop of `drawChart_`: it walks `data` from the last index down
to 0, splices out any series with an empty `timestamps_values`, and calls
`addColumn` for each retained one.  Processing index 0 last means its
column is added last, which this recursion mirrors by recursing on the
tail first.  Returns the final contents of the (mutated) `data` array and
the value-column labels in `addColumn` order. -/
def pruneAndCols : List Series → List Series × List String
  | [] => ([], [])
  | s :: rest =>
      let p := pruneAndCols rest
      if s.timestamps_values = [] then p
      else (s :: p.1, p.2 ++ [seriesLabel s])

/-- The value cells of one row built for the sample of the series at index
`i` out of `n` retained series: `i` nulls, the value, then nulls for the
remaining `n - (i+1)` columns. -/
def gapCells (n i : ℕ) (v : ℚ) : List (Option ℚ) :=
  List.replicate i none ++ some v :: List.replicate (n - (i + 1)) none

/-- The second loop of `drawChart_`: for each retained series (index `i`
counting up from the given start) and each of its samples, one row holding
`new Date(seconds * 1000)` and the gap-filled cells. -/
def buildRows (n : ℕ) : ℕ → List Series → List (ℚ × List (Option ℚ))
  | _, [] => []
  | i, s :: rest =>
      s.timestamps_values.map (fun tv => (tv.1 * 1000, gapCells n i tv.2))
        ++ buildRows n (i + 1) rest

/-- `Chart.prototype.drawChart_` as a function from the incoming series set
to the table handed to the chart widget. -/
def drawChart (data : List Series) : DataTable :=
  { cols := (pruneAndCols data).2
    rows := buildRows (pruneAndCols data).1.length 0 (pruneAndCols data).1 }

/-- The contents of the caller's `data` array after `drawChart_` returns
(the function splices empty series out of it in place). -/
def dataAfterDraw (data : List Series) : List Series :=
  (pruneAndCols data).1

namespace TSDBWatch

/-- `TSDBWatch.MIN_DELAY = 0.5`. -/
def MIN_DELAY : ℚ := 1 / 2

/-- `TSDBWatch.MAX_DELAY = 32.0`. -/
def MAX_DELAY : ℚ := 32

/-- `TSDBWatch.DELAY_MULT = 2`. -/
def DELAY_MULT : ℚ := 2

/-- The mutable state of one `TSDBWatch`.  `timerField` is the value of
`this.timer_` (`none` for `null`, `some d` for a timeout id armed with
delay `d` seconds); `armed` records whether that timeout is still pending
— `window.clearTimeout` cancels it without nulling the field. -/
structure State where
  refresh : ℚ
  delay : ℚ
  timerField : Option ℚ
  armed : Bool
deriving DecidableEq

/-- The state established by the `TSDBWatch` constructor: `refresh_ =
windowSeconds / 40`, `delay_ = MIN_DELAY`, and `sendRequest_()` has run
(`timer_ = null`, the first GET is in flight). -/
def init (windowSeconds : ℚ) : State :=
  { refresh := windowSeconds / 40
    delay := MIN_DELAY
    timerField := none
    armed := false }

/-- `sendRequest_`: nulls `timer_` and issues the GET (the request itself
is environment interaction, not state). -/
def sendRequest (s : State) : State :=
  { s with timerField := none, armed := false }

/-- `retry_`: if `this.timer_` is truthy, log and return; otherwise arm a
timeout for `delay_` seconds and set
`delay_ = Math.min(delay_ * DELAY_MULT, MAX_DELAY)`. -/
def retry (s : State) : State :=
  if s.timerField.isSome then s
  else
    { s with
      timerField := some s.delay
      armed := true
      delay := min (s.delay * DELAY_MULT) MAX_DELAY }

/-- `onLoad_`: a falsy decoded payload (`!data`, i.e. `null` from an empty
or unparsable body) takes the `retry_` path; a truthy payload resets
`delay_` to `MIN_DELAY`, invokes the callback (the returned `Bool`), and
arms a timeout for `refresh_` seconds. -/
def onLoad (s : State) (data : Option (List Series)) : State × Bool :=
  match data with
  | none => (retry s, false)
  | some _ =>
      ({ s with
          delay := MIN_DELAY
          timerField := some s.refresh
          armed := true },
        true)

/-- `destroy`: `if (this.timer_) window.clearTimeout(this.timer_)` — the
pending timeout, if any, is cancelled, but `this.timer_` keeps its stale
id. -/
def destroy (s : State) : State :=
  if s.timerField.isSome then { s with armed := false } else s

/-- The events delivered to one watch: an HTTP `load` with the decoded
payload, an `error`/`timeout` event, a pending timeout firing
(`sendRequest_`), or a `destroy()` call. -/
inductive Event
  | load (data : Option (List Series))
  | errOrTimeout
  | fire
  | destroy

/-- One event step; the `Bool` reports whether the success callback was
invoked during this step. -/
def step (s : State) : Event → State × Bool
  | .load data => onLoad s data
  | .errOrTimeout => (retry s, false)
  | .fire => (sendRequest s, false)
  | .destroy => (destroy s, false)

/-- Run a sequence of events, counting success-callback invocations. -/
def run : State → List Event → State × ℕ
  | s, [] => (s, 0)
  | s, e :: t =>
      let r := step s e
      let rest := run r.1 t
      (rest.1, (if r.2 then 1 else 0) + rest.2)

/-- One full failure cycle: the outstanding request fails
(`errOrTimeout`, arming the retry timeout), then the timeout fires and
`sendRequest_` issues the next GET. -/
def failCycle (s : State) : State :=
  (step (step s .errOrTimeout).1 .fire).1

end TSDBWatch

/-- Byte is in the set `encodeURIComponent` leaves unescaped:
`A–Z a–z 0–9 - _ . ! ~ * ' ( )` (all ASCII; every other byte of the UTF-8
encoding is written as `%HH`). -/
def unreservedByte (b : ℕ) : Bool :=
  (65 ≤ b && b ≤ 90) || (97 ≤ b && b ≤ 122) || (48 ≤ b && b ≤ 57) ||
  b == 45 || b == 95 || b == 46 || b == 33 || b == 126 || b == 42 ||
  b == 39 || b == 40 || b == 41

/-- The ASCII code of the uppercase hex digit for `n < 16`, as
`encodeURIComponent` emits. -/
def hexDigit (n : ℕ) : ℕ :=
  if n < 10 then 48 + n else 55 + n

/-- The value of an ASCII hex digit, accepting both cases as
`decodeURIComponent` does; `none` for a non-hex byte. -/
def hexVal (c : ℕ) : Option ℕ :=
  if 48 ≤ c ∧ c ≤ 57 then some (c - 48)
  else if 65 ≤ c ∧ c ≤ 70 then some (c - 55)
  else if 97 ≤ c ∧ c ≤ 102 then some (c - 87)
  else none

/-- `encodeURIComponent` on the UTF-8 bytes of the string: unreserved
bytes pass through, every other byte becomes `%` (37) plus two uppercase
hex digits. -/
def encodeURIComponentBytes : List ℕ → List ℕ
  | [] => []
  | b :: t =>
      if unreservedByte b then b :: encodeURIComponentBytes t
      else 37 :: hexDigit (b / 16) :: hexDigit (b % 16) :: encodeURIComponentBytes t

/-- `decodeURIComponent` on bytes: a `%` followed by two hex digits yields
the escaped byte; a malformed escape throws `URIError`, modelled as
`none`; every other byte passes through. -/
def decodeURIComponentBytes : List ℕ → Option (List ℕ)
  | [] => some []
  | b :: t =>
      if b = 37 then
        match t with
        | h1 :: h2 :: t2 =>
            match hexVal h1, hexVal h2 with
            | some a, some c =>
                (decodeURIComponentBytes t2).map (fun r => (16 * a + c) :: r)
            | _, _ => none
        | _ => none
      else (decodeURIComponentBytes t).map (fun r => b :: r)

/-- Example series `{tags: {host: "a"}, timestamps_values: [[100,1],[200,2]]}`. -/
def exA : Series := ⟨[("host", "a")], [(100, 1), (200, 2)]⟩

/-- Example series `{tags: {host: "b"}, timestamps_values: []}`. -/
def exB0 : Series := ⟨[("host", "b")], []⟩

/-- Example series `{tags: {host: "a"}, timestamps_values: [[100,1]]}`. -/
def exA1 : Series := ⟨[("host", "a")], [(100, 1)]⟩

/-- Example series `{tags: {host: "b"}, timestamps_values: [[200,2]]}`. -/
def exB1 : Series := ⟨[("host", "b")], [(200, 2)]⟩

lemma pruneAndCols_fst (l : List Series) :
    (pruneAndCols l).1 = l.filter (fun s => !s.timestamps_values.isEmpty) := by
  induction l with
  | nil => rfl
  | cons s t ih =>
      by_cases h : s.timestamps_values = [] <;>
        simp [pruneAndCols, h, List.filter_cons, ih]

lemma pruneAndCols_snd (l : List Series) :
    (pruneAndCols l).2 = ((pruneAndCols l).1.map seriesLabel).reverse := by
  induction l with
  | nil => rfl
  | cons s t ih =>
      by_cases h : s.timestamps_values = [] <;> simp [pruneAndCols, h, ih]

lemma pruneAndCols_filter (l : List Series) :
    pruneAndCols (l.filter (fun s => !s.timestamps_values.isEmpty)) = pruneAndCols l := by
  induction l with
  | nil => rfl
  | cons s t ih =>
      by_cases h : s.timestamps_values = [] <;>
        simp [List.filter_cons, h, pruneAndCols, ih]

/-- C7: a series with an empty sample list contributes no column and no
rows — the table built from `data` is the table built from `data` with
the empty series dropped; concretely, series A with 2 samples and B with
0 samples yield exactly one data column (A's) and exactly 2 rows. -/
theorem drawChart_drops_empty_series (data : List Series) :
    drawChart data = drawChart (data.filter (fun s => !s.timestamps_values.isEmpty))
    ∧ (drawChart [exA, exB0]).cols = ["host=a"]
    ∧ (drawChart [exA, exB0]).rows.length = 2 := by
  refine ⟨?_, ?_, ?_⟩
  · unfold drawChart
    rw [pruneAndCols_filter]
  · rfl
  · rfl

/-- C10: `drawChart_` splices series with empty sample lists out of the
caller's array in place, so after the call the input array holds exactly
the retained series (the no-empty-samples filter of the input), not its
original contents. -/
theorem drawChart_splices_input (data : List Series) :
    dataAfterDraw data = data.filter (fun s => !s.timestamps_values.isEmpty)
    ∧ dataAfterDraw [exA, exB0] = [exA] :=
  ⟨pruneAndCols_fst data, by simp [dataAfterDraw, pruneAndCols, exA, exB0]⟩

lemma buildRows_length (n : ℕ) (l : List Series) (i : ℕ) :
    (buildRows n i l).length = (l.map (fun s => s.timestamps_values.length)).sum := by
  induction l generalizing i with
  | nil => rfl
  | cons s t ih => simp [buildRows, ih]

lemma gapCells_length (n i : ℕ) (v : ℚ) (h : i < n) :
    (gapCells n i v).length = n := by
  simp [gapCells]
  omega

lemma gapCells_get (n i : ℕ) (v : ℚ) (k : ℕ) (hik : i < n)
    (hk : k < (gapCells n i v).length) :
    (gapCells n i v).get ⟨k, hk⟩ = if k = i then some v else none := by
  have hk' : k < n := by rw [gapCells_length n i v hik] at hk; exact hk
  simp only [List.get_eq_getElem]
  rcases lt_trichotomy k i with h | h | h
  · rw [if_neg (by omega)]
    simp only [gapCells]
    rw [List.getElem_append_left (by simpa using h)]
    simp
  · subst h
    rw [if_pos rfl]
    simp only [gapCells]
    rw [List.getElem_append_right (by simp)]
    simp
  · rw [if_neg (by omega)]
    simp only [gapCells]
    rw [List.getElem_append_right (by simp [Nat.le_of_lt h])]
    obtain ⟨m, hm⟩ : ∃ m, k - (List.replicate i (none : Option ℚ)).length = m + 1 :=
      ⟨k - i - 1, by simp; omega⟩
    simp only [hm, List.getElem_cons_succ, List.getElem_replicate]

lemma buildRows_mem (n : ℕ) (l : List Series) (i j : ℕ) (hj : j < l.length)
    (tv : ℚ × ℚ) (htv : tv ∈ (l.get ⟨j, hj⟩).timestamps_values) :
    (tv.1 * 1000, gapCells n (i + j) tv.2) ∈ buildRows n i l := by
  induction l generalizing i j with
  | nil => simp at hj
  | cons s t ih =>
      cases j with
      | zero =>
          refine List.mem_append_left _ ?_
          exact List.mem_map.mpr ⟨tv, by simpa using htv, by simp⟩
      | succ j =>
          have hj' : j < t.length := by simpa using hj
          have hmem := ih (i + 1) j hj' (by simpa using htv)
          refine List.mem_append_right _ ?_
          have e : i + (j + 1) = (i + 1) + j := by omega

          rw [e]
          exact hmem

/-- C8: every sample of every retained series becomes its own row (total
row count = total sample count, so coinciding timestamps are never
merged), holding the timestamp in milliseconds, the value in the cell at
the owning series' index among the retained series, and `null` in every
other cell. -/
theorem drawChart_row_per_sample (data : List Series) :
    (drawChart data).rows.length
        = ((pruneAndCols data).1.map (fun s => s.timestamps_values.length)).sum
    ∧ ∀ i (hi : i < (pruneAndCols data).1.length) tv,
        tv ∈ ((pruneAndCols data).1.get ⟨i, hi⟩).timestamps_values →
        ∃ cells, (tv.1 * 1000, cells) ∈ (drawChart data).rows
          ∧ cells.length = (pruneAndCols data).1.length
          ∧ ∀ k (hk : k < cells.length),
              cells.get ⟨k, hk⟩ = if k = i then some tv.2 else none := by
  constructor
  · exact buildRows_length _ _ 0
  · intro i hi tv htv
    refine ⟨gapCells (pruneAndCols data).1.length i tv.2, ?_, ?_, ?_⟩
    · have hmem := buildRows_mem (pruneAndCols data).1.length (pruneAndCols data).1 0 i hi tv htv
      simpa [drawChart] using hmem
    · exact gapCells_length _ _ _ hi
    · intro k hk
      exact gapCells_get _ _ _ _ hi hk

/-- C8 witness: the first sample of series A in the two-series example
appears as its own row with time 100000 ms, its value at its own cell,
and a gap elsewhere. -/
theorem drawChart_row_per_sample_witness :
    ∃ cells, ((100:ℚ) * 1000, cells) ∈ (drawChart [exA, exB0]).rows
      ∧ cells.length = (pruneAndCols [exA, exB0]).1.length
      ∧ ∀ k (hk : k < cells.length),
          cells.get ⟨k, hk⟩ = if k = 0 then some (1:ℚ) else none :=
  (drawChart_row_per_sample [exA, exB0]).2 0 (by simp [pruneAndCols, exA, exB0])
    ((100:ℚ), (1:ℚ)) (by simp [pruneAndCols, exA, exB0])

/-- C3: the claim fails on the code.  The column-building loop iterates in
reverse while the row-building loop places series `i`'s values at cell
`i`, so with two retained series the column labels come out in reverse
input order and series A's values sit under series B's label. -/
theorem drawChart_column_label_mismatch :
    (drawChart [exA1, exB1]).cols = [seriesLabel exB1, seriesLabel exA1]
    ∧ seriesLabel exA1 = "host=a"
    ∧ seriesLabel exB1 = "host=b"
    ∧ (drawChart [exA1, exB1]).cols ≠ [seriesLabel exA1, seriesLabel exB1]
    ∧ (drawChart [exA1, exB1]).rows
        = [(100000, [some 1, none]), (200000, [none, some 2])] := by
  have hc : (drawChart [exA1, exB1]).cols = ["host=b", "host=a"] := rfl
  have hr : (drawChart [exA1, exB1]).rows
      = [(100000, [some 1, none]), (200000, [none, some 2])] := by
    norm_num [drawChart, pruneAndCols, buildRows, gapCells, exA1, exB1]
  refine ⟨?_, rfl, rfl, ?_, hr⟩
  · rw [hc]; rfl
  · rw [hc]; decide

namespace TSDBWatch

/-- C1: the claim fails on the code.  `destroy()` only cancels a pending
timeout; it sets no destroyed flag, so a response already in flight when
`destroy()` is called still runs `onLoad_`, which invokes the success
callback and arms a fresh refresh timeout.  Trace: the constructor's GET
is in flight, `destroy()` is called, then the response arrives truthy. -/
theorem destroy_then_inflight_success_reinvokes :
    (run (init 1200) [.destroy, .load (some [exA])]).2 = 1
    ∧ (run (init 1200) [.destroy, .load (some [exA])]).1.armed = true
    ∧ (run (init 1200) [.destroy, .load (some [exA])]).1.timerField = some 30 := by
  refine ⟨rfl, rfl, ?_⟩
  norm_num [run, step, init, onLoad, destroy]

lemma failCycle_eq (s : State) : failCycle s = sendRequest (retry s) := rfl

lemma min_double (x : ℚ) : min (min x 32 * 2) 32 = min (x * 2) 32 := by
  rcases le_total x 32 with h | h
  · rw [min_eq_left h]
  · rw [min_eq_right h, min_eq_right (show (32:ℚ) ≤ 32 * 2 by norm_num),
      min_eq_right (show (32:ℚ) ≤ x * 2 by linarith)]

lemma failCycle_invariant (w : ℚ) (k : ℕ) :
    (failCycle^[k] (init w)).timerField = none
    ∧ (failCycle^[k] (init w)).delay = min ((2:ℚ) ^ k * MIN_DELAY) MAX_DELAY
    ∧ (failCycle^[k] (init w)).refresh = w / 40 := by
  induction k with
  | zero =>
      refine ⟨rfl, ?_, rfl⟩
      norm_num [init, MIN_DELAY, MAX_DELAY]
  | succ k ih =>
      obtain ⟨h1, h2, h3⟩ := ih
      rw [Function.iterate_succ_apply', failCycle_eq]
      have hr : retry (failCycle^[k] (init w))
          = { failCycle^[k] (init w) with
              timerField := some (failCycle^[k] (init w)).delay
              armed := true
              delay := min ((failCycle^[k] (init w)).delay * DELAY_MULT) MAX_DELAY } := by
        rw [retry, if_neg (by simp [h1])]
      refine ⟨by simp [sendRequest, hr], ?_, by simp [sendRequest, hr, h3]⟩
      simp only [sendRequest, hr, h2, MIN_DELAY, MAX_DELAY, DELAY_MULT]
      rw [min_double]
      congr 1
      ring

/-- C2: starting from a fresh watch, the delay scheduled on the
`(k+1)`-th consecutive failure is `min (2^k * 0.5) 32` — i.e. the
sequence 0.5, 1, 2, 4, 8, 16, 32, 32, … — after which the stored delay is
doubled and clamped at 32; a single success resets the stored delay to
0.5. -/
theorem backoff_sequence (w : ℚ) (k : ℕ) :
    (retry (failCycle^[k] (init w))).timerField
        = some (min ((2:ℚ) ^ k * MIN_DELAY) MAX_DELAY)
    ∧ (retry (failCycle^[k] (init w))).delay
        = min ((2:ℚ) ^ (k + 1) * MIN_DELAY) MAX_DELAY
    ∧ (List.range 8).map (fun j => min ((2:ℚ) ^ j * MIN_DELAY) MAX_DELAY)
        = [1/2, 1, 2, 4, 8, 16, 32, 32]
    ∧ ∀ s data, (onLoad s (some data)).1.delay = MIN_DELAY := by
  obtain ⟨h1, h2, h3⟩ := failCycle_invariant w k
  refine ⟨?_, ?_, ?_, fun s data => rfl⟩
  · rw [retry, if_neg (by simp [h1])]
    simp [h2]
  · rw [retry, if_neg (by simp [h1])]
    simp only [h2, MIN_DELAY, MAX_DELAY, DELAY_MULT]
    rw [min_double]
    congr 1
    ring
  · norm_num [List.range_succ, MIN_DELAY, MAX_DELAY, min_def]

/-- C4: calling `retry_` while a retry timeout is already pending hits the
duplicate-call guard and leaves the whole state — in particular the timer
and the backoff delay — unchanged, so no second timeout is ever
created. -/
theorem retry_guard_idempotent (s : State) (h : s.timerField.isSome = true) :
    retry s = s := by
  rw [retry, if_pos (by simp [h])]

/-- C4 witness: the guard at a concrete state with a pending timeout. -/
theorem retry_guard_idempotent_witness :
    retry { refresh := 30, delay := 1, timerField := some 1, armed := true }
      = { refresh := 30, delay := 1, timerField := some 1, armed := true } :=
  retry_guard_idempotent _ rfl

/-- C5: the constructor stores `refresh_ = windowSeconds / 40`, and after
a successful load the next request is scheduled `refresh_` seconds out. -/
theorem refresh_interval (w : ℚ) (_hw : 0 < w) :
    (init w).refresh = w / 40
    ∧ ∀ data, (onLoad (init w) (some data)).1.timerField = some (w / 40) :=
  ⟨rfl, fun _ => rfl⟩

/-- C5 witness: `windowSeconds = 1200` yields a 30-second interval. -/
theorem refresh_interval_witness :
    (init 1200).refresh = 1200 / 40 ∧ (init 1200).refresh = 30 :=
  ⟨(refresh_interval 1200 (by norm_num)).1, by norm_num [init]⟩

/-- C6: `onLoad_` branches on the truthiness of the decoded payload, and
exactly one path runs: the callback fires iff the payload is truthy; a
falsy payload runs `retry_` (scheduling the next request after the
current backoff delay when no timeout is pending, then doubling the
delay with clamp); a truthy payload resets the delay, invokes the
callback and schedules the refresh. -/
theorem onLoad_classification (s : State) (data : Option (List Series)) :
    ((onLoad s data).2 = true ↔ data.isSome = true)
    ∧ (data = none →
        (onLoad s data).1 = retry s
        ∧ (s.timerField = none →
            (onLoad s data).1.timerField = some s.delay
            ∧ (onLoad s data).1.delay = min (s.delay * DELAY_MULT) MAX_DELAY))
    ∧ (∀ l, data = some l →
        (onLoad s data).1.delay = MIN_DELAY
        ∧ (onLoad s data).1.timerField = some s.refresh) := by
  cases data with
  | none =>
      refine ⟨by simp [onLoad], ?_, by simp⟩
      intro _
      refine ⟨rfl, ?_⟩
      intro h
      constructor <;> simp [onLoad, retry, h]
  | some l =>
      exact ⟨by simp [onLoad], by simp, fun _ _ => ⟨rfl, rfl⟩⟩

/-- C6 witness: a falsy payload at the freshly constructed watch schedules
the retry at the current backoff delay without invoking the callback; a
truthy payload invokes it. -/
theorem onLoad_classification_witness :
    (onLoad (init 1200) none).1.timerField = some (init 1200).delay
    ∧ (onLoad (init 1200) none).2 = false
    ∧ (onLoad (init 1200) (some [exA])).2 = true := by
  have h := onLoad_classification (init 1200) none
  refine ⟨((h.2.1 rfl).2 rfl).1, ?_,
    (onLoad_classification (init 1200) (some [exA])).1.mpr rfl⟩
  have h1 := h.1
  simp at h1
  exact h1

end TSDBWatch

lemma unreservedByte_ne37 (b : ℕ) (h : unreservedByte b = true) : b ≠ 37 := by
  rintro rfl
  exact absurd h (by decide)

lemma hexVal_hexDigit (n : ℕ) (h : n < 16) : hexVal (hexDigit n) = some n := by
  unfold hexVal hexDigit
  split_ifs <;> simp_all <;> omega

lemma decode_cons_ne37 (b : ℕ) (t : List ℕ) (hb : b ≠ 37) :
    decodeURIComponentBytes (b :: t)
      = (decodeURIComponentBytes t).map (fun r => b :: r) := by
  rw [decodeURIComponentBytes.eq_def]
  simp [hb]

lemma decode_escape (h1 h2 : ℕ) (t : List ℕ) (a c : ℕ)
    (e1 : hexVal h1 = some a) (e2 : hexVal h2 = some c) :
    decodeURIComponentBytes (37 :: h1 :: h2 :: t)
      = (decodeURIComponentBytes t).map (fun r => (16 * a + c) :: r) := by
  rw [decodeURIComponentBytes.eq_def]
  simp [e1, e2]

/-- C9: percent-encoding then percent-decoding a string — modelled on its
UTF-8 bytes, which is exactly the layer the `%`-escape transform works
at — yields the original string. -/
theorem percent_round_trip (l : List ℕ) (h : ∀ b ∈ l, b < 256) :
    decodeURIComponentBytes (encodeURIComponentBytes l) = some l := by
  induction l with
  | nil => rfl
  | cons b t ih =>
      have hb : b < 256 := h b (by simp)
      have ht : ∀ x ∈ t, x < 256 := fun x hx => h x (by simp [hx])
      by_cases hu : unreservedByte b = true
      · rw [encodeURIComponentBytes, if_pos hu,
          decode_cons_ne37 b _ (unreservedByte_ne37 b hu), ih ht]
        rfl
      · rw [encodeURIComponentBytes, if_neg hu,
          decode_escape _ _ _ _ _ (hexVal_hexDigit (b / 16) (by omega))
            (hexVal_hexDigit (b % 16) (by omega)),
          ih ht]
        simp [Nat.div_add_mod]

/-- C9 witness: the byte string of `a&b=c d` (containing `&`, `=` and a
space) survives the round trip. -/
theorem percent_round_trip_witness :
    decodeURIComponentBytes (encodeURIComponentBytes [97, 38, 98, 61, 99, 32, 100])
      = some [97, 38, 98, 61, 99, 32, 100] :=
  percent_round_trip [97, 38, 98, 61, 99, 32, 100] (by decide)

end Yatsdb
